import Mathlib

/-!
Shallow embedding of the Product_Importer repository's core logic:
the CSV row normalizer, the bulk upsert engine, the import-job
coordinator (`process_import_job` in `products/tasks.py`), and the
webhook trigger / delivery workers (`webhooks/tasks.py`).

Strings model Python `str` (trim/upper/lower are ASCII-faithful for the
inputs at hand); prices model `decimal.Decimal` values as rationals, with
a parser for plain signed decimal numerals; database tables are lists of
records; a Django `save(update_fields=[...])` is modelled by copying
exactly the listed fields from the in-memory object to the persisted row.
-/

namespace ProductImporter

/-! ### Python string primitives, modelled over character lists -/

/-- Python `str.strip()`: drop whitespace from both ends. -/
def pyStrip (s : String) : String :=
  String.mk (((s.data.dropWhile Char.isWhitespace).reverse.dropWhile Char.isWhitespace).reverse)

/-- Python `str.upper()` (ASCII-faithful). -/
def pyUpper (s : String) : String := String.mk (s.data.map Char.toUpper)

/-- Python `str.lower()` (ASCII-faithful). -/
def pyLower (s : String) : String := String.mk (s.data.map Char.toLower)

/-! ### Decimal parsing: model of `Decimal(raw_price)` on plain numerals -/

/-- Numeric value of a decimal digit character. -/
def digitVal (c : Char) : Nat := c.toNat - 48

/-- Value of a digit string read in base 10. -/
def natOfDigits (cs : List Char) : Nat := cs.foldl (fun n c => n * 10 + digitVal c) 0

/-- All characters are decimal digits. -/
def allDigits (cs : List Char) : Bool := cs.all Char.isDigit

/-- Parse an unsigned decimal numeral (digits with at most one dot,
at least one digit somewhere) into a rational. -/
def parseUnsignedDecimal (cs : List Char) : Option ℚ :=
  let intPart := cs.takeWhile (fun c => c != '.')
  let rest := cs.dropWhile (fun c => c != '.')
  match rest with
  | [] =>
      if intPart.isEmpty then none
      else if allDigits intPart then some ((natOfDigits intPart : ℚ))
      else none
  | _ :: fracPart =>
      if fracPart.any (fun c => c == '.') then none
      else if intPart.isEmpty && fracPart.isEmpty then none
      else if allDigits intPart && allDigits fracPart then
        some ((natOfDigits intPart : ℚ) + (natOfDigits fracPart : ℚ) / ((10 : ℚ) ^ fracPart.length))
      else none

/-- Parse a signed decimal numeral; `none` models `InvalidOperation`. -/
def parseDecimal (s : String) : Option ℚ :=
  match s.toList with
  | [] => none
  | '+' :: rest => parseUnsignedDecimal rest
  | '-' :: rest => (parseUnsignedDecimal rest).map (fun q => -q)
  | cs => parseUnsignedDecimal cs

/-! ### Row normalizer (`_normalize_row`) -/

/-- One CSV data row as produced by `csv.DictReader`: each recognized
column is present with a string value or absent/None. -/
structure Row where
  sku : Option String
  name : Option String
  description : Option String
  price : Option String
deriving Repr, DecidableEq

/-- Model of Python `(row.get(k) or "")`. -/
def orEmpty (o : Option String) : String := o.getD ""

/-- The normalized internal record built by `_normalize_row`. -/
structure NormalizedRow where
  sku_upper : String
  name : String
  description : String
  price : ℚ
deriving Repr, DecidableEq

/-- The price branch of `_normalize_row`: blank defaults to zero, an
unparseable numeral silently falls back to zero. -/
def parsePrice (rawPrice : String) : ℚ :=
  if rawPrice = "" then 0
  else
    match parseDecimal rawPrice with
    | some d => d
    | none => 0

/-- `_normalize_row`: returns `none` (skip) when the trimmed SKU is
empty, otherwise the normalized record. -/
def normalizeRow (row : Row) : Option NormalizedRow :=
  let raw_sku := pyStrip (orEmpty row.sku)
  if raw_sku = "" then none
  else
    some
      { sku_upper := pyUpper raw_sku
        name := pyStrip (orEmpty row.name)
        description := pyStrip (orEmpty row.description)
        price := parsePrice (pyStrip (orEmpty row.price)) }

/-! ### Data model (`products/models.py`) -/

/-- A persisted `Product` row.  Timestamps are abstract counters. -/
structure Product where
  sku : String
  name : String
  description : String
  price : ℚ
  is_active : Bool
  created_at : Nat
  updated_at : Nat
deriving Repr, DecidableEq

/-- `ImportJob.status` values. -/
inductive JobStatus
  | pending
  | processing
  | completed
  | failed
deriving Repr, DecidableEq

/-- An `ImportJob` row.  The attached file is modelled as the list of
CSV data rows it parses to (`none` means no file attached). -/
structure ImportJob where
  status : JobStatus
  total_rows : Nat
  processed_rows : Nat
  error_message : String
  file : Option (List Row)
deriving Repr, DecidableEq

/-! ### Upsert engine (`_upsert_products`) -/

/-- The case-folding key used throughout: lower-cased SKU. -/
def skuKey (s : String) : String := pyLower s

/-- The single existing-products query: the product whose stored SKU
case-folds to `key` (unique by the `uniq_product_sku_ci` constraint). -/
def findByLowerSku (prods : List Product) (key : String) : Option Product :=
  prods.find? (fun p => pyLower p.sku == key)

/-- Overwrite the three imported fields on an existing product object,
mirroring the loop body `existing.name = ...` etc.  `sku`, `is_active`
and the timestamps are not touched. -/
def overwriteFields (p : Product) (it : NormalizedRow) : Product :=
  { p with name := it.name, description := it.description, price := it.price }

/-- A freshly staged product for `bulk_create`; `is_active` defaults to
true per the model field default. -/
def newProduct (it : NormalizedRow) : Product :=
  { sku := it.sku_upper
    name := it.name
    description := it.description
    price := it.price
    is_active := true
    created_at := 0
    updated_at := 0 }

/-- The staged state built by the classification loop: the net effect of
the mutated shared `existing_by_lower` objects (`updates`, keyed by
folded SKU) and the `to_create` list. -/
structure Staging where
  updates : List (String × Product)
  creates : List Product
deriving Repr, DecidableEq

/-- Look up the currently staged object for a folded-SKU key. -/
def lookupStaged (ups : List (String × Product)) (key : String) : Option Product :=
  (ups.find? (fun kp => kp.1 == key)).map Prod.snd

/-- Replace the staged object for a key (models mutating the shared
Python object another loop iteration already staged). -/
def replaceStaged (ups : List (String × Product)) (key : String) (p : Product) :
    List (String × Product) :=
  ups.map (fun kp => if kp.1 == key then (key, p) else kp)

/-- One iteration of the classification loop in `_upsert_products`. -/
def stageStep (prods : List Product) (st : Staging) (it : NormalizedRow) : Staging :=
  let key := skuKey it.sku_upper
  match lookupStaged st.updates key with
  | some p => { st with updates := replaceStaged st.updates key (overwriteFields p it) }
  | none =>
      match findByLowerSku prods key with
      | some p => { st with updates := st.updates ++ [(key, overwriteFields p it)] }
      | none => { st with creates := st.creates ++ [newProduct it] }

/-- The whole classification loop over a batch. -/
def stageItems (prods : List Product) (items : List NormalizedRow) : Staging :=
  items.foldl (stageStep prods) ⟨[], []⟩

/-- Does a list of folded-SKU keys contain a duplicate? -/
def hasDupKey : List String → Bool
  | [] => false
  | k :: ks => ks.any (fun x => x == k) || hasDupKey ks

/-- The `uniq_product_sku_ci` unique constraint check applied by the
database during `bulk_create`: a violation occurs when two staged
inserts share a folded SKU or a staged insert collides with a stored
row. -/
def bulkCreateViolation (prods creates : List Product) : Bool :=
  hasDupKey (creates.map (fun p => pyLower p.sku)) ||
    creates.any (fun c => prods.any (fun p => pyLower p.sku == pyLower c.sku))

/-- `bulk_update`: write each staged object back over the stored row it
was loaded from (matched here by folded SKU, the key the engine used). -/
def applyUpdates (prods : List Product) (ups : List (String × Product)) : List Product :=
  prods.map (fun p => (lookupStaged ups (pyLower p.sku)).getD p)

/-- Error message for the unique-constraint violation raised inside the
transaction. -/
def uniqueViolationMessage : String :=
  "duplicate key value violates unique constraint uniq_product_sku_ci"

/-- `_upsert_products`: stages the batch, then applies creates, updates
and the `processed_rows` advance in one atomic transaction.  On a
constraint violation the transaction rolls back: the caller keeps its
pre-call products and job rows, so `.error` carries no state.  Returns
the new products table, the persisted job row and the in-memory job
object. -/
def upsertProducts (items : List NormalizedRow) (prods : List Product)
    (dbJob memJob : ImportJob) :
    Except String (List Product × ImportJob × ImportJob) :=
  if items.isEmpty then .ok (prods, dbJob, memJob)
  else
    let st := stageItems prods items
    if bulkCreateViolation prods st.creates then .error uniqueViolationMessage
    else
      let mem2 := { memJob with processed_rows := memJob.processed_rows + items.length }
      let db2 := { dbJob with processed_rows := mem2.processed_rows }
      .ok (applyUpdates prods st.updates ++ st.creates, db2, mem2)

/-! ### Import job coordinator (`process_import_job`) -/

/-- Copy the fields of `save(update_fields=["status", "error_message",
"total_rows", "processed_rows"])` from the in-memory object to the
persisted row. -/
def saveResetFields (dbJob memJob : ImportJob) : ImportJob :=
  { dbJob with
    status := memJob.status
    error_message := memJob.error_message
    total_rows := memJob.total_rows
    processed_rows := memJob.processed_rows }

/-- `save(update_fields=["status", "error_message"])`. -/
def saveStatusError (dbJob memJob : ImportJob) : ImportJob :=
  { dbJob with status := memJob.status, error_message := memJob.error_message }

/-- `save(update_fields=["total_rows"])` (the periodic checkpoint). -/
def saveTotalRows (dbJob memJob : ImportJob) : ImportJob :=
  { dbJob with total_rows := memJob.total_rows }

/-- `save(update_fields=["status", "processed_rows", "total_rows"])`
(the completion save). -/
def saveCompletion (dbJob memJob : ImportJob) : ImportJob :=
  { dbJob with
    status := memJob.status
    processed_rows := memJob.processed_rows
    total_rows := memJob.total_rows }

/-- Batch bound from `products/tasks.py`. -/
def CHUNK_SIZE : Nat := 5000

/-- Result of the streaming loop: products table, persisted job row,
in-memory job object, and the exception if one escaped a batch. -/
structure LoopResult where
  products : List Product
  dbJob : ImportJob
  memJob : ImportJob
  err : Option String
deriving Repr, DecidableEq

/-- The `for idx, row in enumerate(reader, start=1)` loop plus the final
flush: counts every row into `total_rows`, checkpoints it every 1000
rows, buffers normalized rows, hands full chunks to the upsert engine,
and flushes the remaining partial buffer when the stream ends. -/
def importRows :
    List Row → Nat → List NormalizedRow → List Product → ImportJob → ImportJob → LoopResult
  | [], _, buffer, prods, dbJob, memJob =>
      if buffer.isEmpty then ⟨prods, dbJob, memJob, none⟩
      else
        match upsertProducts buffer prods dbJob memJob with
        | .ok (p2, d2, m2) => ⟨p2, d2, m2, none⟩
        | .error e => ⟨prods, dbJob, memJob, some e⟩
  | row :: rest, idx, buffer, prods, dbJob, memJob =>
      let idx2 := idx + 1
      let mem2 := { memJob with total_rows := idx2 }
      let db2 := if idx2 % 1000 == 0 then saveTotalRows dbJob mem2 else dbJob
      match normalizeRow row with
      | none => importRows rest idx2 buffer prods db2 mem2
      | some r =>
          let buffer2 := buffer ++ [r]
          if buffer2.length ≥ CHUNK_SIZE then
            match upsertProducts buffer2 prods db2 mem2 with
            | .ok (p2, d2, m2) => importRows rest idx2 [] p2 d2 m2
            | .error e => ⟨prods, db2, mem2, some e⟩
          else importRows rest idx2 buffer2 prods db2 mem2

/-- The `ValueError` message raised for a job with no attached file. -/
def missingFileMessage : String := "No file associated with this import job."

/-- `process_import_job(job_id)`: resets the job to `processing` with
zeroed counters, streams the file through normalizer and upsert engine,
and ends either with the completion save or — for any exception — with
`status=failed`, the exception text as `error_message`, and the
exception re-raised (the third component of the result). -/
def processImportJob (prods : List Product) (job : ImportJob) :
    List Product × ImportJob × Option String :=
  let mem :=
    { job with
      status := JobStatus.processing
      error_message := ""
      total_rows := 0
      processed_rows := 0 }
  let db1 := saveResetFields job mem
  match mem.file with
  | none =>
      let memF := { mem with status := JobStatus.failed, error_message := missingFileMessage }
      (prods, saveStatusError db1 memF, some missingFileMessage)
  | some rows =>
      let res := importRows rows 0 [] prods db1 mem
      match res.err with
      | some e =>
          let memF := { res.memJob with status := JobStatus.failed, error_message := e }
          (res.products, saveStatusError res.dbJob memF, some e)
      | none =>
          let memC := { res.memJob with status := JobStatus.completed }
          (res.products, saveCompletion res.dbJob memC, none)

/-! ### Webhooks (`webhooks/models.py`, `webhooks/tasks.py`) -/

/-- A `Webhook` row. -/
structure Webhook where
  id : Nat
  url : String
  event : String
  is_enabled : Bool
deriving Repr, DecidableEq

/-- A `WebhookDelivery` receipt row. -/
structure WebhookDelivery where
  webhook_id : Nat
  status_code : Option Nat
  response_time_ms : Option Nat
  success : Bool
  error_message : String
deriving Repr, DecidableEq

/-- Outcome of the `requests.post` call, supplied by the environment:
either a completed response (status, body text, elapsed time) or an
exception (timeout, connection failure) with its message. -/
inductive HttpResult
  | resp (status : Nat) (text : String) (elapsedMs : Nat)
  | exn (message : String) (elapsedMs : Nat)
deriving Repr, DecidableEq

/-- `requests.Response.ok`: true when the status code is below 400. -/
def respOk (status : Nat) : Bool := status < 400

/-- Python slicing `s[:n]`: the first `n` characters. -/
def truncateTo (n : Nat) (s : String) : String := String.mk (s.data.take n)

/-- `Webhook.objects.get(pk=webhook_id)` as a lookup by primary key. -/
def findWebhook (hooks : List Webhook) (wid : Nat) : Option Webhook :=
  hooks.find? (fun w => w.id == wid)

/-- The `Webhook.DoesNotExist` message raised when the destination is
gone. -/
def unknownWebhookMessage : String := "Webhook matching query does not exist."

/-- `deliver_webhook(webhook_id, payload, event)`: loads the webhook
(raising if it no longer exists — the error is the second component and
no receipt row is written), creates the receipt, performs the HTTP call
and records its outcome on the receipt; exceptions from the call are
swallowed after being recorded. -/
def deliverWebhook (hooks : List Webhook) (deliveries : List WebhookDelivery)
    (wid : Nat) (_payload : String) (http : HttpResult) :
    List WebhookDelivery × Option String :=
  match findWebhook hooks wid with
  | none => (deliveries, some unknownWebhookMessage)
  | some _ =>
      let d0 : WebhookDelivery :=
        { webhook_id := wid
          status_code := none
          response_time_ms := none
          success := false
          error_message := "" }
      let d1 :=
        match http with
        | .resp status text elapsedMs =>
            { d0 with
              status_code := some status
              response_time_ms := some elapsedMs
              success := respOk status
              error_message := if respOk status then "" else truncateTo 500 text }
        | .exn message elapsedMs =>
            { d0 with
              status_code := none
              response_time_ms := some elapsedMs
              success := false
              error_message := truncateTo 500 message }
      (deliveries ++ [d1], none)

/-- The queryset `Webhook.objects.filter(event=event, is_enabled=True)`. -/
def matchingHooks (hooks : List Webhook) (event : String) : List Webhook :=
  hooks.filter (fun w => w.event == event && w.is_enabled)

/-- `trigger_event_webhooks(event, payload)`: enqueue one delivery task
(webhook id, payload) per enabled webhook configured for `event`. -/
def triggerEventWebhooks (hooks : List Webhook) (event : String) (payload : String) :
    List (Nat × String) :=
  (matchingHooks hooks event).map (fun w => (w.id, payload))

/-- Background workers draining the queued delivery tasks in order; the
`http` environment gives the outcome of the `i`-th HTTP call. -/
def runScheduled (hooks : List Webhook) (http : Nat → HttpResult) :
    List (Nat × String) → Nat → List WebhookDelivery → List WebhookDelivery
  | [], _, deliveries => deliveries
  | (wid, pay) :: rest, i, deliveries =>
      runScheduled hooks http rest (i + 1) (deliverWebhook hooks deliveries wid pay (http i)).1

/-! ### Specification helpers and fixtures -/

/-- The last record of a batch whose folded SKU equals `key` ("last
occurrence in file order"). -/
def lastMatch : List NormalizedRow → String → Option NormalizedRow
  | [], _ => none
  | it :: its, key =>
      match lastMatch its key with
      | some r => some r
      | none => if skuKey it.sku_upper == key then some it else none

/-- Sequential application of batches by the coordinator: each batch is
one `_upsert_products` transaction; processing stops at the first
failure, keeping the state left by the committed batches. -/
def applyBatches : List (List NormalizedRow) → List Product → ImportJob → ImportJob →
    List Product × ImportJob × ImportJob × Option String
  | [], prods, dbJob, memJob => (prods, dbJob, memJob, none)
  | b :: bs, prods, dbJob, memJob =>
      match upsertProducts b prods dbJob memJob with
      | .ok (p2, d2, m2) => applyBatches bs p2 d2 m2
      | .error e => (prods, dbJob, memJob, some e)

/-- A fresh job row with no file attached. -/
def emptyJob : ImportJob :=
  { status := JobStatus.pending
    total_rows := 0
    processed_rows := 0
    error_message := ""
    file := none }

/-- A job that already finished (terminal status) whose file is gone. -/
def doneJobNoFile : ImportJob :=
  { status := JobStatus.completed
    total_rows := 3
    processed_rows := 3
    error_message := ""
    file := none }

/-! ### Basic lemmas -/

theorem overwriteFields_idem (p : Product) (a b : NormalizedRow) :
    overwriteFields (overwriteFields p a) b = overwriteFields p b := rfl

theorem upsertProducts_ok_elim {items : List NormalizedRow} {prods : List Product}
    {dbJob memJob : ImportJob} {p2 : List Product} {d2 m2 : ImportJob}
    (h : upsertProducts items prods dbJob memJob = .ok (p2, d2, m2)) :
    (items = [] ∧ p2 = prods ∧ d2 = dbJob ∧ m2 = memJob) ∨
    (items ≠ [] ∧
      p2 = applyUpdates prods (stageItems prods items).updates ++ (stageItems prods items).creates ∧
      d2 = { dbJob with processed_rows := memJob.processed_rows + items.length } ∧
      m2 = { memJob with processed_rows := memJob.processed_rows + items.length } ∧
      bulkCreateViolation prods (stageItems prods items).creates = false) := by
  unfold upsertProducts at h
  by_cases he : items.isEmpty
  · left
    rw [if_pos he] at h
    obtain ⟨h1, h2, h3⟩ := by simpa using h.symm
    exact ⟨List.isEmpty_iff.mp he, h1, h2, h3⟩
  · right
    rw [if_neg he] at h
    by_cases hv : bulkCreateViolation prods (stageItems prods items).creates
    · rw [if_pos hv] at h
      exact absurd h (by simp)
    · rw [if_neg hv] at h
      obtain ⟨h1, h2, h3⟩ := by simpa using h.symm
      refine ⟨fun hnil => he (by simp [hnil]), h1, h2, h3, by simpa using hv⟩

theorem upsertProducts_error_of (items : List NormalizedRow) (prods : List Product)
    (dbJob memJob : ImportJob)
    (hne : ¬ items.isEmpty)
    (hv : bulkCreateViolation prods (stageItems prods items).creates = true) :
    upsertProducts items prods dbJob memJob = .error uniqueViolationMessage := by
  unfold upsertProducts
  rw [if_neg hne, if_pos hv]

theorem truncateTo_length_le (n : Nat) (s : String) : (truncateTo n s).length ≤ n := by
  have h : (truncateTo n s).length = (s.data.take n).length := rfl
  rw [h, List.length_take]
  exact Nat.min_le_left _ _

theorem deliver_found_receipt {hooks : List Webhook} {deliveries : List WebhookDelivery}
    {wid : Nat} {payload : String} {http : HttpResult} {w : Webhook}
    (hfind : findWebhook hooks wid = some w) :
    ∃ d, deliverWebhook hooks deliveries wid payload http = (deliveries ++ [d], none) ∧
      d.webhook_id = wid := by
  unfold deliverWebhook
  rw [hfind]
  cases http with
  | resp status text elapsedMs => exact ⟨_, rfl, rfl⟩
  | exn message elapsedMs => exact ⟨_, rfl, rfl⟩

/-! ### Claim C5 -/

/-- C5: the row normalizer never fails on a price string.  For a row
whose trimmed SKU is non-empty the row is normalized (not skipped); a
blank price field normalizes to exactly zero; a price field that does
not parse as a decimal numeral also normalizes to exactly zero. -/
theorem normalizeRow_lenient_price (row : Row)
    (hsku : pyStrip (orEmpty row.sku) ≠ "") :
    ∃ r, normalizeRow row = some r ∧
      (pyStrip (orEmpty row.price) = "" → r.price = 0) ∧
      (parseDecimal (pyStrip (orEmpty row.price)) = none → r.price = 0) := by
  refine ⟨{ sku_upper := pyUpper (pyStrip (orEmpty row.sku)),
            name := pyStrip (orEmpty row.name),
            description := pyStrip (orEmpty row.description),
            price := parsePrice (pyStrip (orEmpty row.price)) }, ?_, ?_, ?_⟩
  · unfold normalizeRow
    rw [if_neg hsku]
  · intro h
    simp [parsePrice, h]
  · intro h
    by_cases hb : pyStrip (orEmpty row.price) = ""
    · simp [parsePrice, hb]
    · simp [parsePrice, hb, h]

/-- Witness for C5: the price string "abc" is unparseable, the row is
not skipped, and its normalized price is zero. -/
theorem normalizeRow_lenient_price_witness :
    pyStrip (orEmpty (Row.mk (some "A1") none none (some "abc")).sku) ≠ "" ∧
    (∃ r, normalizeRow (Row.mk (some "A1") none none (some "abc")) = some r ∧
      (pyStrip (orEmpty (Row.mk (some "A1") none none (some "abc")).price) = "" → r.price = 0) ∧
      (parseDecimal (pyStrip (orEmpty (Row.mk (some "A1") none none (some "abc")).price)) = none →
        r.price = 0)) :=
  ⟨by decide, normalizeRow_lenient_price (Row.mk (some "A1") none none (some "abc")) (by decide)⟩

/-! ### Claim C10 -/

/-- C10: a delivery attempt against a webhook id that no longer exists
fails with the unknown-webhook error, which propagates to the caller,
and no delivery receipt row is created for the attempt. -/
theorem deliver_missing_webhook_no_receipt (hooks : List Webhook)
    (deliveries : List WebhookDelivery) (wid : Nat) (payload : String) (http : HttpResult)
    (h : findWebhook hooks wid = none) :
    deliverWebhook hooks deliveries wid payload http = (deliveries, some unknownWebhookMessage) ∧
      unknownWebhookMessage ≠ "" := by
  constructor
  · unfold deliverWebhook
    rw [h]
  · decide

/-- Witness for C10 at a concrete missing id. -/
theorem deliver_missing_webhook_no_receipt_witness :
    deliverWebhook [] [] 7 "payload" (HttpResult.exn "timeout" 5000) =
      ([], some unknownWebhookMessage) ∧ unknownWebhookMessage ≠ "" :=
  deliver_missing_webhook_no_receipt [] [] 7 "payload" (HttpResult.exn "timeout" 5000) rfl

/-! ### Claim C9 -/

/-- C9 counterexample: a completed response with HTTP status 100 is
outside the 2xx/3xx range, yet `r.ok` (status below 400) makes the
receipt record success=true, refuting "success true exactly when the
response status is in the 2xx/3xx range". -/
theorem deliver_success_range_counterexample :
    (deliverWebhook [{ id := 1, url := "http://dest", event := "product.created", is_enabled := true }]
        [] 1 "payload" (HttpResult.resp 100 "continue" 7)).1 =
      [{ webhook_id := 1, status_code := some 100, response_time_ms := some 7,
         success := true, error_message := "" }] ∧
    ¬ (200 ≤ 100 ∧ 100 < 400) := by
  exact ⟨rfl, by decide⟩

/-- C9 (amended): for a delivery against an existing webhook, the
receipt records the elapsed time, the final status code (or null when
the call never completed), success exactly when the status code is
below 400 (the `requests` ok-range; false on exceptions), and an error
text of at most 500 characters — and the call returns to its caller
without raising. -/
theorem deliver_records_outcome (hooks : List Webhook) (deliveries : List WebhookDelivery)
    (wid : Nat) (payload : String) (http : HttpResult) (w : Webhook)
    (hfind : findWebhook hooks wid = some w) :
    ∃ d, deliverWebhook hooks deliveries wid payload http = (deliveries ++ [d], none) ∧
      d.webhook_id = wid ∧ d.error_message.length ≤ 500 ∧
      (∀ status text elapsedMs, http = HttpResult.resp status text elapsedMs →
        d.status_code = some status ∧ d.response_time_ms = some elapsedMs ∧
          (d.success = true ↔ status < 400)) ∧
      (∀ message elapsedMs, http = HttpResult.exn message elapsedMs →
        d.status_code = none ∧ d.response_time_ms = some elapsedMs ∧ d.success = false) := by
  unfold deliverWebhook
  rw [hfind]
  cases http with
  | resp status text elapsedMs =>
      refine ⟨_, rfl, rfl, ?_, ?_, ?_⟩
      · by_cases hok : respOk status
        · simp [hok]
        · simp [hok, truncateTo_length_le]
      · intro s t e he
        injection he with h1 h2 h3
        subst h1; subst h3
        refine ⟨rfl, rfl, ?_⟩
        simp [respOk]
      · intro msg e he
        exact absurd he (by simp)
  | exn message elapsedMs =>
      refine ⟨_, rfl, rfl, ?_, ?_, ?_⟩
      · simpa using truncateTo_length_le 500 message
      · intro s t e he
        exact absurd he (by simp)
      · intro msg e he
        injection he with h1 h2
        subst h2
        exact ⟨rfl, rfl, rfl⟩

/-- Witness for the amended C9 at a concrete timed-out delivery. -/
theorem deliver_records_outcome_witness :
    ∃ d, deliverWebhook
        [{ id := 1, url := "http://dest", event := "product.created", is_enabled := true }]
        [] 1 "payload" (HttpResult.exn "connection refused" 5000) = ([] ++ [d], none) ∧
      d.webhook_id = 1 ∧ d.error_message.length ≤ 500 ∧
      (∀ status text elapsedMs,
        HttpResult.exn "connection refused" 5000 = HttpResult.resp status text elapsedMs →
        d.status_code = some status ∧ d.response_time_ms = some elapsedMs ∧
          (d.success = true ↔ status < 400)) ∧
      (∀ message elapsedMs,
        HttpResult.exn "connection refused" 5000 = HttpResult.exn message elapsedMs →
        d.status_code = none ∧ d.response_time_ms = some elapsedMs ∧ d.success = false) :=
  deliver_records_outcome
    [{ id := 1, url := "http://dest", event := "product.created", is_enabled := true }]
    [] 1 "payload" (HttpResult.exn "connection refused" 5000)
    { id := 1, url := "http://dest", event := "product.created", is_enabled := true } rfl

/-! ### Claim C2 -/

theorem processImportJob_status_terminal (prods : List Product) (job : ImportJob) :
    (processImportJob prods job).2.1.status = JobStatus.completed ∨
    (processImportJob prods job).2.1.status = JobStatus.failed := by
  simp only [processImportJob]
  split
  · right; rfl
  · split
    · right; rfl
    · left; rfl

/-- C2 counterexample: `run(job_id)` on a job whose status is the
terminal `completed`, but whose file is gone, unconditionally resets and
re-processes the job and ends with status `failed`: an operation of the
system changed a terminal status. -/
theorem run_on_terminal_job_counterexample :
    doneJobNoFile.status = JobStatus.completed ∧
    (processImportJob [] doneJobNoFile).2.1.status = JobStatus.failed ∧
    JobStatus.failed ≠ JobStatus.completed :=
  ⟨rfl, rfl, by decide⟩

/-- C2 (amended): a terminal status is stable except under a further
`run(job_id)` invocation, which resets the job and re-processes it;
such a re-run always ends in a terminal status (completed or failed)
determined by the new run alone. -/
theorem run_reenters_terminal (prods : List Product) (job : ImportJob)
    (_hterm : job.status = JobStatus.completed ∨ job.status = JobStatus.failed) :
    (processImportJob prods job).2.1.status = JobStatus.completed ∨
    (processImportJob prods job).2.1.status = JobStatus.failed :=
  processImportJob_status_terminal prods job

/-- Witness for the amended C2: re-running a completed no-file job ends
terminal (here: failed). -/
theorem run_reenters_terminal_witness :
    (processImportJob [] { emptyJob with status := JobStatus.completed }).2.1.status =
        JobStatus.completed ∨
    (processImportJob [] { emptyJob with status := JobStatus.completed }).2.1.status =
        JobStatus.failed :=
  run_reenters_terminal [] { emptyJob with status := JobStatus.completed } (Or.inl rfl)

/-! ### Claim C7 -/

/-- C7: whenever `run(job_id)` ends in an exception, the job is
persisted with status=failed and the exception's message, at full
length, as `error_message`, and the exception is re-raised to the
caller; in particular a job with no attached file ends failed with a
non-empty message and zeroed `processed_rows`. -/
theorem run_records_failure (prods : List Product) (job : ImportJob) :
    (∀ p2 j2 e, processImportJob prods job = (p2, j2, some e) →
        j2.status = JobStatus.failed ∧ j2.error_message = e) ∧
    (job.file = none →
        ∃ j2, processImportJob prods job = (prods, j2, some missingFileMessage) ∧
          j2.status = JobStatus.failed ∧ j2.error_message = missingFileMessage ∧
          missingFileMessage ≠ "" ∧ j2.processed_rows = 0 ∧ j2.total_rows = 0) := by
  constructor
  · intro p2 j2 e
    simp only [processImportJob]
    split
    · intro h
      obtain ⟨hp, hj, he⟩ := by simpa using h
      subst hj; subst he
      exact ⟨rfl, rfl⟩
    · split
      · intro h
        obtain ⟨hp, hj, he⟩ := by simpa using h
        subst hj; subst he
        exact ⟨rfl, rfl⟩
      · intro h
        simp at h
  · intro hf
    refine ⟨{ job with
              status := JobStatus.failed
              error_message := missingFileMessage
              total_rows := 0
              processed_rows := 0 }, ?_, rfl, rfl, by decide, rfl, rfl⟩
    simp [processImportJob, saveStatusError, saveResetFields, hf]

/-- Witness for C7: a concrete pending job with no file. -/
theorem run_records_failure_witness :
    ∃ j2, processImportJob [] emptyJob = ([], j2, some missingFileMessage) ∧
      j2.status = JobStatus.failed ∧ j2.error_message = missingFileMessage ∧
      missingFileMessage ≠ "" ∧ j2.processed_rows = 0 ∧ j2.total_rows = 0 :=
  (run_records_failure [] emptyJob).2 rfl

/-! ### Claim C3 -/

theorem applyBatches_append (bs : List (List NormalizedRow)) (b : List NormalizedRow) :
    ∀ (prods : List Product) (dbJob memJob : ImportJob) (p : List Product) (d m : ImportJob),
      applyBatches bs prods dbJob memJob = (p, d, m, none) →
      applyBatches (bs ++ [b]) prods dbJob memJob =
        match upsertProducts b p d m with
        | .ok (p2, d2, m2) => (p2, d2, m2, none)
        | .error e => (p, d, m, some e) := by
  induction bs with
  | nil =>
      intro prods dbJob memJob p d m h
      obtain ⟨h1, h2, h3⟩ := by simpa [applyBatches] using h
      subst h1; subst h2; subst h3
      cases hu : upsertProducts b prods dbJob memJob with
      | ok t =>
          obtain ⟨p2, d2, m2⟩ := t
          simp [applyBatches, hu]
      | error e => simp [applyBatches, hu]
  | cons hd tl ih =>
      intro prods dbJob memJob p d m h
      simp only [List.cons_append, applyBatches] at h ⊢
      cases hu : upsertProducts hd prods dbJob memJob with
      | ok t =>
          obtain ⟨p2, d2, m2⟩ := t
          rw [hu] at h
          exact ih p2 d2 m2 p d m h
      | error e =>
          rw [hu] at h
          have h2 : (prods, dbJob, memJob, some e) = (p, d, m, (none : Option String)) := h
          simp at h2

theorem applyBatches_sync (bs : List (List NormalizedRow)) :
    ∀ (prods : List Product) (dbJob memJob : ImportJob) (p : List Product) (d m : ImportJob),
      dbJob.processed_rows = memJob.processed_rows →
      applyBatches bs prods dbJob memJob = (p, d, m, none) →
      d.processed_rows = m.processed_rows := by
  induction bs with
  | nil =>
      intro prods dbJob memJob p d m hs h
      obtain ⟨h1, h2, h3⟩ := by simpa [applyBatches] using h
      subst h2; subst h3
      exact hs
  | cons hd tl ih =>
      intro prods dbJob memJob p d m hs h
      simp only [applyBatches] at h
      cases hu : upsertProducts hd prods dbJob memJob with
      | ok t =>
          obtain ⟨p2, d2, m2⟩ := t
          rw [hu] at h
          have hs2 : d2.processed_rows = m2.processed_rows := by
            rcases upsertProducts_ok_elim hu with ⟨_, _, hd2, hm2⟩ | ⟨_, _, hd2, hm2, _⟩
            · subst hd2; subst hm2; exact hs
            · subst hd2; subst hm2; rfl
          exact ih p2 d2 m2 p d m hs2 h
      | error e =>
          rw [hu] at h
          have h2 : (prods, dbJob, memJob, some e) = (p, d, m, (none : Option String)) := h
          simp at h2

/-- C3: each upsert engine call is atomic.  After any prefix of
committed batches, a failing batch leaves the products table and the
persisted `processed_rows` exactly as the committed batches left them
(those stay committed), while a successful batch commits all its writes
and advances `processed_rows` by the batch size in the same
transaction. -/
theorem upsert_batch_atomic (bs : List (List NormalizedRow)) (b : List NormalizedRow)
    (p0 : List Product) (d0 m0 : ImportJob) (p : List Product) (d m : ImportJob)
    (hsync : d0.processed_rows = m0.processed_rows)
    (hprev : applyBatches bs p0 d0 m0 = (p, d, m, none)) :
    (∀ e, upsertProducts b p d m = .error e →
        applyBatches (bs ++ [b]) p0 d0 m0 = (p, d, m, some e)) ∧
    (∀ p2 d2 m2, upsertProducts b p d m = .ok (p2, d2, m2) →
        applyBatches (bs ++ [b]) p0 d0 m0 = (p2, d2, m2, none) ∧
        d2.processed_rows = d.processed_rows + b.length ∧
        m2.processed_rows = m.processed_rows + b.length) := by
  have happ := applyBatches_append bs b p0 d0 m0 p d m hprev
  have hs := applyBatches_sync bs p0 d0 m0 p d m hsync hprev
  constructor
  · intro e he
    rw [happ, he]
  · intro p2 d2 m2 hok
    rw [happ, hok]
    refine ⟨rfl, ?_, ?_⟩
    · rcases upsertProducts_ok_elim hok with ⟨hb, _, hd2, _⟩ | ⟨_, _, hd2, _, _⟩
      · subst hb; subst hd2; simp
      · subst hd2; simp [hs]
    · rcases upsertProducts_ok_elim hok with ⟨hb, _, _, hm2⟩ | ⟨_, _, _, hm2, _⟩
      · subst hb; subst hm2; simp
      · subst hm2; simp

/-- Fixture: first batch, one new product. -/
def recA : NormalizedRow := { sku_upper := "AAA", name := "first", description := "", price := 1 }

/-- Fixture: second batch, two records whose SKUs collide case-folded
and match no stored product. -/
def recB1 : NormalizedRow := { sku_upper := "BBB", name := "dup one", description := "", price := 10 }

/-- Fixture: the later colliding record. -/
def recB2 : NormalizedRow := { sku_upper := "BBB", name := "dup two", description := "", price := 20 }

/-- Witness for C3: the failing second batch leaves the first batch's
commit (one product, `processed_rows = 1`) untouched. -/
theorem upsert_batch_atomic_witness :
    applyBatches [[recA], [recB1, recB2]] [] emptyJob emptyJob =
      ([newProduct recA], { emptyJob with processed_rows := 1 },
        { emptyJob with processed_rows := 1 }, some uniqueViolationMessage) :=
  (upsert_batch_atomic [[recA]] [recB1, recB2] [] emptyJob emptyJob
      [newProduct recA] { emptyJob with processed_rows := 1 }
      { emptyJob with processed_rows := 1 } rfl rfl).1
    uniqueViolationMessage rfl

/-! ### Characterizing the classification loop -/

theorem lookupStaged_cons (kp : String × Product) (rest : List (String × Product)) (k : String) :
    lookupStaged (kp :: rest) k = if kp.1 == k then some kp.2 else lookupStaged rest k := by
  by_cases h : kp.1 == k
  · simp [lookupStaged, List.find?_cons_of_pos, h]
  · simp [lookupStaged, List.find?_cons_of_neg, h]

theorem lookupStaged_append (ups1 ups2 : List (String × Product)) (k : String) :
    lookupStaged (ups1 ++ ups2) k =
      match lookupStaged ups1 k with
      | some p => some p
      | none => lookupStaged ups2 k := by
  induction ups1 with
  | nil => simp [lookupStaged]
  | cons kp rest ih =>
      rw [List.cons_append, lookupStaged_cons, lookupStaged_cons]
      by_cases h : kp.1 == k
      · simp [h]
      · simp [h, ih]

theorem lookupStaged_replace_self (ups : List (String × Product)) (k : String) (p q : Product)
    (h : lookupStaged ups k = some q) :
    lookupStaged (replaceStaged ups k p) k = some p := by
  induction ups with
  | nil => simp [lookupStaged] at h
  | cons kp rest ih =>
      rw [lookupStaged_cons] at h
      simp only [replaceStaged, List.map_cons]
      by_cases hk : kp.1 == k
      · rw [if_pos hk, lookupStaged_cons]
        simp
      · rw [if_neg hk] at h
        rw [if_neg hk, lookupStaged_cons, if_neg hk]
        have : replaceStaged rest k p = rest.map (fun kp => if kp.1 == k then (k, p) else kp) := rfl
        rw [← this]
        exact ih h

theorem lookupStaged_replace_other (ups : List (String × Product)) (k k2 : String) (p : Product)
    (hne : k ≠ k2) :
    lookupStaged (replaceStaged ups k p) k2 = lookupStaged ups k2 := by
  induction ups with
  | nil => rfl
  | cons kp rest ih =>
      simp only [replaceStaged, List.map_cons]
      have hrs : rest.map (fun kp => if kp.1 == k then (k, p) else kp) = replaceStaged rest k p := rfl
      by_cases hk : kp.1 == k
      · have h1 : kp.1 = k := by simpa using hk
        have h2 : ((k : String) == k2) = false := by simpa using hne
        rw [if_pos hk, lookupStaged_cons, lookupStaged_cons]
        simp only [h2, h1, Bool.false_eq_true, if_false]
        rw [hrs, ih]
      · rw [if_neg hk, lookupStaged_cons, lookupStaged_cons, hrs, ih]

theorem lookupStaged_some_mem {ups : List (String × Product)} {k : String} {q : Product}
    (h : lookupStaged ups k = some q) : ∃ kp ∈ ups, kp.1 = k ∧ kp.2 = q := by
  unfold lookupStaged at h
  cases hf : ups.find? (fun kp => kp.1 == k) with
  | none => rw [hf] at h; simp at h
  | some kp =>
      rw [hf] at h
      simp only [Option.map] at h
      refine ⟨kp, List.mem_of_find?_eq_some hf, ?_, by simpa using h⟩
      simpa using List.find?_some hf

theorem stageFold_updates (prods : List Product) (items : List NormalizedRow) :
    ∀ (st : Staging) (key : String),
      lookupStaged (items.foldl (stageStep prods) st).updates key =
        match lastMatch items key with
        | none => lookupStaged st.updates key
        | some it =>
            match lookupStaged st.updates key with
            | some p => some (overwriteFields p it)
            | none =>
                match findByLowerSku prods key with
                | some p => some (overwriteFields p it)
                | none => none := by
  induction items with
  | nil =>
      intro st key
      simp [lastMatch]
  | cons it its ih =>
      intro st key
      rw [List.foldl_cons, ih (stageStep prods st it) key]
      simp only [lastMatch]
      by_cases hkey : (skuKey it.sku_upper == key)
      · have hk : skuKey it.sku_upper = key := by simpa using hkey
        subst hk
        cases hl : lookupStaged st.updates (skuKey it.sku_upper) with
        | some p =>
            have h1 : lookupStaged (stageStep prods st it).updates (skuKey it.sku_upper) =
                some (overwriteFields p it) := by
              simp only [stageStep, hl]
              exact lookupStaged_replace_self _ _ _ _ hl
            cases hm : lastMatch its (skuKey it.sku_upper) with
            | some r => simp [h1, hl, overwriteFields_idem]
            | none => simp [h1, hl]
        | none =>
            cases hf : findByLowerSku prods (skuKey it.sku_upper) with
            | some p =>
                have h1 : lookupStaged (stageStep prods st it).updates (skuKey it.sku_upper) =
                    some (overwriteFields p it) := by
                  simp only [stageStep, hl, hf]
                  rw [lookupStaged_append, hl, lookupStaged_cons]
                  simp
                cases hm : lastMatch its (skuKey it.sku_upper) with
                | some r => simp [h1, hl, hf, overwriteFields_idem]
                | none => simp [h1, hl, hf]
            | none =>
                have h1 : lookupStaged (stageStep prods st it).updates (skuKey it.sku_upper) =
                    none := by
                  simp [stageStep, hl, hf]
                cases hm : lastMatch its (skuKey it.sku_upper) with
                | some r => simp [h1, hl, hf]
                | none => simp [h1, hl, hf]
      · have hne : skuKey it.sku_upper ≠ key := by simpa using hkey
        have h1 : lookupStaged (stageStep prods st it).updates key = lookupStaged st.updates key := by
          simp only [stageStep]
          cases hl : lookupStaged st.updates (skuKey it.sku_upper) with
          | some p => exact lookupStaged_replace_other _ _ _ _ hne
          | none =>
              cases hf : findByLowerSku prods (skuKey it.sku_upper) with
              | some p =>
                  rw [lookupStaged_append]
                  cases hq : lookupStaged st.updates key with
                  | some q => rfl
                  | none =>
                      rw [lookupStaged_cons]
                      simp [hne, lookupStaged]
              | none => rfl
        cases hm : lastMatch its key with
        | some r => simp [h1]
        | none => simp [h1, hkey]

theorem stageFold_creates (prods : List Product) (items : List NormalizedRow) :
    ∀ st : Staging,
      (∀ kp ∈ st.updates, (findByLowerSku prods kp.1).isSome = true) →
      (items.foldl (stageStep prods) st).creates =
        st.creates ++ (items.filter
          (fun it => (findByLowerSku prods (skuKey it.sku_upper)).isNone)).map newProduct := by
  induction items with
  | nil =>
      intro st _
      simp
  | cons it its ih =>
      intro st hinv
      rw [List.foldl_cons]
      cases hl : lookupStaged st.updates (skuKey it.sku_upper) with
      | some p =>
          have hsome : (findByLowerSku prods (skuKey it.sku_upper)).isSome = true := by
            obtain ⟨kp, hmem, hk1, _⟩ := lookupStaged_some_mem hl
            rw [← hk1]
            exact hinv kp hmem
          have hst : stageStep prods st it = { st with updates := replaceStaged st.updates (skuKey it.sku_upper) (overwriteFields p it) } := by
            simp only [stageStep, hl]
          rw [hst]
          have hinv2 : ∀ kp ∈ replaceStaged st.updates (skuKey it.sku_upper) (overwriteFields p it),
              (findByLowerSku prods kp.1).isSome = true := by
            intro kp hmem
            simp only [replaceStaged, List.mem_map] at hmem
            obtain ⟨kp0, hkp0, heq⟩ := hmem
            by_cases hb : kp0.1 == skuKey it.sku_upper
            · rw [← heq, if_pos hb]
              exact hsome
            · rw [← heq, if_neg hb]
              exact hinv kp0 hkp0
          rw [ih _ hinv2]
          have hnone : (findByLowerSku prods (skuKey it.sku_upper)).isNone = false := by
            simp [Option.isNone_eq_false_iff, Option.isSome_iff_exists] at hsome ⊢
            exact hsome
          simp [List.filter_cons, hnone]
      | none =>
          cases hf : findByLowerSku prods (skuKey it.sku_upper) with
          | some p =>
              have hst : stageStep prods st it = { st with updates := st.updates ++ [(skuKey it.sku_upper, overwriteFields p it)] } := by
                simp only [stageStep, hl, hf]
              rw [hst]
              have hinv2 : ∀ kp ∈ st.updates ++ [(skuKey it.sku_upper, overwriteFields p it)],
                  (findByLowerSku prods kp.1).isSome = true := by
                intro kp hmem
                rcases List.mem_append.mp hmem with hmem1 | hmem2
                · exact hinv kp hmem1
                · simp at hmem2
                  rw [hmem2]
                  simp [hf]
              rw [ih _ hinv2]
              simp [List.filter_cons, hf]
          | none =>
              have hst : stageStep prods st it = { st with creates := st.creates ++ [newProduct it] } := by
                simp only [stageStep, hl, hf]
              rw [hst, ih { st with creates := st.creates ++ [newProduct it] } hinv]
              simp [List.filter_cons, hf]

theorem stageItems_updates (prods : List Product) (items : List NormalizedRow) (key : String) :
    lookupStaged (stageItems prods items).updates key =
      match lastMatch items key with
      | none => none
      | some it =>
          match findByLowerSku prods key with
          | some p => some (overwriteFields p it)
          | none => none := by
  have h := stageFold_updates prods items ⟨[], []⟩ key
  rw [stageItems, h]
  cases lastMatch items key with
  | none => rfl
  | some it => rfl

theorem stageItems_creates (prods : List Product) (items : List NormalizedRow) :
    (stageItems prods items).creates =
      (items.filter (fun it => (findByLowerSku prods (skuKey it.sku_upper)).isNone)).map
        newProduct := by
  have h := stageFold_creates prods items ⟨[], []⟩ (by intro kp hk; simp at hk)
  rw [stageItems, h]
  simp

theorem upsert_existing_updated {items : List NormalizedRow} {prods prods2 : List Product}
    {dbJob memJob db2 mem2 : ImportJob} {key : String} {p : Product} {it : NormalizedRow}
    (hfind : findByLowerSku prods key = some p)
    (hlast : lastMatch items key = some it)
    (hok : upsertProducts items prods dbJob memJob = .ok (prods2, db2, mem2)) :
    overwriteFields p it ∈ prods2 ∧ pyLower p.sku = key := by
  have hpkey : pyLower p.sku = key := by
    have := List.find?_some hfind
    simpa using this
  rcases upsertProducts_ok_elim hok with ⟨hnil, _, _, _⟩ | ⟨_, hp2, _, _, _⟩
  · subst hnil
    simp [lastMatch] at hlast
  · subst hp2
    refine ⟨List.mem_append_left _ ?_, hpkey⟩
    have hmem : p ∈ prods := List.mem_of_find?_eq_some hfind
    have hlook : lookupStaged (stageItems prods items).updates (pyLower p.sku) =
        some (overwriteFields p it) := by
      rw [hpkey, stageItems_updates, hlast, hfind]
    unfold applyUpdates
    refine List.mem_map.mpr ⟨p, hmem, ?_⟩
    rw [hlook]
    rfl

/-! ### Claims C1 and C6 -/

/-- Fixture: a stored, deactivated product whose SKU case-folds to
"abc". -/
def prodOld : Product :=
  { sku := "ABC"
    name := "old name"
    description := "old desc"
    price := 5
    is_active := false
    created_at := 7
    updated_at := 9 }

/-- Fixture: the normalized record of a row with SKU "abc", price 10. -/
def recAbc10 : NormalizedRow :=
  { sku_upper := "ABC", name := "first", description := "", price := 10 }

/-- Fixture: the normalized record of a later row with SKU "ABC",
price 20. -/
def recAbc20 : NormalizedRow :=
  { sku_upper := "ABC", name := "second", description := "", price := 20 }

/-- Fixture: `prodOld` after the last duplicate record overwrote its
imported fields. -/
def prodAfter : Product :=
  { sku := "ABC"
    name := "second"
    description := ""
    price := 20
    is_active := false
    created_at := 7
    updated_at := 9 }

/-- Fixture: a job row whose `processed_rows` advanced by one batch of
two records. -/
def jobAfter2 : ImportJob := { emptyJob with processed_rows := 2 }

/-- C1 counterexample: for the claim's own batch — SKU "abc" price 10
followed by SKU "ABC" price 20 — with no pre-existing product for that
SKU, both records are staged as inserts and the case-insensitive unique
constraint rejects the batch: the upsert raises instead of applying, so
the claim is false in its "or not" (no pre-existing product) case. -/
theorem upsert_duplicate_new_sku_counterexample :
    normalizeRow (Row.mk (some "abc") (some "first") none (some "10")) = some recAbc10 ∧
    normalizeRow (Row.mk (some "ABC") (some "second") none (some "20")) = some recAbc20 ∧
    upsertProducts [recAbc10, recAbc20] [] emptyJob emptyJob = .error uniqueViolationMessage :=
  ⟨by decide, by decide, rfl⟩

/-- C1 (amended): within one batch, duplicate case-folded SKUs resolve
last-write-wins only when a product with that SKU already exists in the
catalog: the duplicate records all overwrite the one staged object, so
the persisted product ends with the name, description and price of the
last such record in file order.  (When no such product exists, the
duplicates are staged as two inserts and the batch fails with a
uniqueness violation — see the counterexample.) -/
theorem upsert_batch_duplicate_last_wins (items : List NormalizedRow)
    (prods prods2 : List Product) (dbJob memJob db2 mem2 : ImportJob)
    (key : String) (p : Product) (it : NormalizedRow)
    (hfind : findByLowerSku prods key = some p)
    (hlast : lastMatch items key = some it)
    (hok : upsertProducts items prods dbJob memJob = .ok (prods2, db2, mem2)) :
    ∃ q ∈ prods2, q.sku = p.sku ∧ q.name = it.name ∧ q.description = it.description ∧
      q.price = it.price ∧ q.is_active = p.is_active :=
  ⟨overwriteFields p it, (upsert_existing_updated hfind hlast hok).1, rfl, rfl, rfl, rfl, rfl⟩

/-- Witness for the amended C1: the duplicate pair applied over an
existing product for that SKU ends with the last record's price 20. -/
theorem upsert_batch_duplicate_last_wins_witness :
    ∃ q ∈ [prodAfter], q.sku = prodOld.sku ∧ q.name = recAbc20.name ∧
      q.description = recAbc20.description ∧ q.price = recAbc20.price ∧
      q.is_active = prodOld.is_active :=
  upsert_batch_duplicate_last_wins [recAbc10, recAbc20] [prodOld] [prodAfter]
    emptyJob emptyJob jobAfter2 jobAfter2 "abc" prodOld recAbc20 rfl rfl rfl

/-- C6: for an existing product matched by import records, the upsert
overwrites only `name`, `description` and `price` (besides the
server-maintained `updated_at` column named in the bulk update); the
product's `sku`, `is_active` and `created_at` are unchanged. -/
theorem upsert_preserves_untouched_fields (items : List NormalizedRow)
    (prods prods2 : List Product) (dbJob memJob db2 mem2 : ImportJob)
    (key : String) (p : Product) (it : NormalizedRow)
    (hfind : findByLowerSku prods key = some p)
    (hlast : lastMatch items key = some it)
    (hok : upsertProducts items prods dbJob memJob = .ok (prods2, db2, mem2)) :
    ∃ q ∈ prods2, q.name = it.name ∧ q.description = it.description ∧ q.price = it.price ∧
      q.sku = p.sku ∧ q.is_active = p.is_active ∧ q.created_at = p.created_at ∧
      q.updated_at = p.updated_at :=
  ⟨overwriteFields p it, (upsert_existing_updated hfind hlast hok).1,
    rfl, rfl, rfl, rfl, rfl, rfl, rfl⟩

/-- Witness for C6: re-importing over a deactivated product keeps
`is_active = false` and `created_at` intact. -/
theorem upsert_preserves_untouched_fields_witness :
    (∃ q ∈ [prodAfter], q.name = recAbc20.name ∧ q.description = recAbc20.description ∧
      q.price = recAbc20.price ∧ q.sku = prodOld.sku ∧ q.is_active = prodOld.is_active ∧
      q.created_at = prodOld.created_at ∧ q.updated_at = prodOld.updated_at) ∧
    prodOld.is_active = false :=
  ⟨upsert_preserves_untouched_fields [recAbc10, recAbc20] [prodOld] [prodAfter]
      emptyJob emptyJob jobAfter2 jobAfter2 "abc" prodOld recAbc20 rfl rfl rfl,
    rfl⟩

/-! ### Claim C4: success of the streaming loop on distinct kept SKUs -/

theorem hasDupKey_eq_false_of_nodup {l : List String} (h : l.Nodup) : hasDupKey l = false := by
  induction l with
  | nil => rfl
  | cons k ks ih =>
      rw [List.nodup_cons] at h
      unfold hasDupKey
      rw [ih h.2]
      simp only [Bool.or_false]
      rw [List.any_eq_false]
      intro x hx
      simp only [beq_iff_eq]
      intro hxy
      exact h.1 (hxy ▸ hx)

theorem upsertProducts_ok_of_nodup (items : List NormalizedRow) (prods : List Product)
    (dbJob memJob : ImportJob)
    (hne : items ≠ [])
    (hk : (items.map (fun it => skuKey it.sku_upper)).Nodup) :
    upsertProducts items prods dbJob memJob =
      .ok (applyUpdates prods (stageItems prods items).updates ++ (stageItems prods items).creates,
        { dbJob with processed_rows := memJob.processed_rows + items.length },
        { memJob with processed_rows := memJob.processed_rows + items.length }) := by
  have hnodup : ((stageItems prods items).creates.map (fun p => pyLower p.sku)).Nodup := by
    rw [stageItems_creates, List.map_map]
    have hsub : List.Sublist
        ((items.filter (fun it => (findByLowerSku prods (skuKey it.sku_upper)).isNone)).map
          ((fun p => pyLower p.sku) ∘ newProduct))
        (items.map ((fun p => pyLower p.sku) ∘ newProduct)) :=
      List.Sublist.map _ (List.filter_sublist items)
    refine List.Nodup.sublist hsub ?_
    have : items.map ((fun p => pyLower p.sku) ∘ newProduct) =
        items.map (fun it => skuKey it.sku_upper) := by
      simp [Function.comp, newProduct, skuKey]
    rw [this]
    exact hk
  have hv : bulkCreateViolation prods (stageItems prods items).creates = false := by
    unfold bulkCreateViolation
    rw [hasDupKey_eq_false_of_nodup hnodup]
    simp only [Bool.false_or]
    rw [List.any_eq_false]
    intro c hc
    rw [stageItems_creates] at hc
    obtain ⟨it, hit, hceq⟩ := List.mem_map.mp hc
    have hpred := (List.mem_filter.mp hit).2
    have hfind : findByLowerSku prods (skuKey it.sku_upper) = none := by
      cases hf : findByLowerSku prods (skuKey it.sku_upper) with
      | none => rfl
      | some q => rw [hf] at hpred; simp at hpred
    have hall := List.find?_eq_none.mp hfind
    subst hceq
    intro hcon
    rw [List.any_eq_true] at hcon
    obtain ⟨p, hp, hbeq⟩ := hcon
    exact hall p hp (by simpa [newProduct, skuKey] using hbeq)
  unfold upsertProducts
  rw [if_neg (by simpa [List.isEmpty_iff] using hne), if_neg (by simp [hv])]

theorem importRows_ok (rows : List Row) :
    ∀ (idx : Nat) (buffer : List NormalizedRow) (prods : List Product) (dbJob memJob : ImportJob),
      ((buffer ++ rows.filterMap normalizeRow).map (fun it => skuKey it.sku_upper)).Nodup →
      memJob.total_rows = idx →
      ∃ p2 d2 m2, importRows rows idx buffer prods dbJob memJob = ⟨p2, d2, m2, none⟩ ∧
        m2.total_rows = idx + rows.length ∧
        m2.processed_rows = memJob.processed_rows + buffer.length +
          (rows.filterMap normalizeRow).length ∧
        m2.status = memJob.status ∧ m2.error_message = memJob.error_message := by
  induction rows with
  | nil =>
      intro idx buffer prods dbJob memJob hk htot
      by_cases hb : buffer.isEmpty
      · have hbe : buffer = [] := List.isEmpty_iff.mp hb
        refine ⟨prods, dbJob, memJob, ?_, ?_, ?_, rfl, rfl⟩
        · simp [importRows, hb]
        · simpa using htot
        · simp [hbe]
      · have hne : buffer ≠ [] := fun hh => hb (by simp [hh])
        have hku : (buffer.map (fun it => skuKey it.sku_upper)).Nodup := by
          simpa using hk
        have hup := upsertProducts_ok_of_nodup buffer prods dbJob memJob hne hku
        refine ⟨applyUpdates prods (stageItems prods buffer).updates ++
            (stageItems prods buffer).creates,
          { dbJob with processed_rows := memJob.processed_rows + buffer.length },
          { memJob with processed_rows := memJob.processed_rows + buffer.length },
          ?_, ?_, ?_, rfl, rfl⟩
        · simp [importRows, hb, hup]
        · simpa using htot
        · simp
  | cons row rest ih =>
      intro idx buffer prods dbJob memJob hk htot
      cases hnr : normalizeRow row with
      | none =>
          have hk2 : ((buffer ++ rest.filterMap normalizeRow).map
              (fun it => skuKey it.sku_upper)).Nodup := by
            simpa [List.filterMap_cons, hnr] using hk
          obtain ⟨p2, d2, m2, heq, h1, h2, h3, h4⟩ :=
            ih (idx + 1) buffer prods
              (if (idx + 1) % 1000 == 0 then
                saveTotalRows dbJob { memJob with total_rows := idx + 1 } else dbJob)
              { memJob with total_rows := idx + 1 } hk2 rfl
          refine ⟨p2, d2, m2, ?_, ?_, ?_, ?_, ?_⟩
          · simp only [importRows, hnr]
            exact heq
          · rw [h1]
            simp only [List.length_cons]
            omega
          · simpa [List.filterMap_cons, hnr] using h2
          · simpa using h3
          · simpa using h4
      | some r =>
          have hkall : (((buffer ++ [r]) ++ rest.filterMap normalizeRow).map
              (fun it => skuKey it.sku_upper)).Nodup := by
            simpa [List.filterMap_cons, hnr, List.append_assoc] using hk
          by_cases hch : (buffer ++ [r]).length ≥ CHUNK_SIZE
          · have hne : buffer ++ [r] ≠ [] := by simp
            have hku : ((buffer ++ [r]).map (fun it => skuKey it.sku_upper)).Nodup := by
              rw [List.map_append] at hkall
              exact hkall.of_append_left
            have hk2 : ((([] : List NormalizedRow) ++ rest.filterMap normalizeRow).map
                (fun it => skuKey it.sku_upper)).Nodup := by
              rw [List.map_append] at hkall
              simpa using hkall.of_append_right
            have hup := upsertProducts_ok_of_nodup (buffer ++ [r]) prods
              (if (idx + 1) % 1000 == 0 then
                saveTotalRows dbJob { memJob with total_rows := idx + 1 } else dbJob)
              { memJob with total_rows := idx + 1 } hne hku
            obtain ⟨p2, d2, m2, heq, h1, h2, h3, h4⟩ := ih (idx + 1) [] (applyUpdates prods (stageItems prods (buffer ++ [r])).updates ++ (stageItems prods (buffer ++ [r])).creates) { (if (idx + 1) % 1000 == 0 then saveTotalRows dbJob { memJob with total_rows := idx + 1 } else dbJob) with processed_rows := ({ memJob with total_rows := idx + 1 } : ImportJob).processed_rows + (buffer ++ [r]).length } { ({ memJob with total_rows := idx + 1 } : ImportJob) with processed_rows := ({ memJob with total_rows := idx + 1 } : ImportJob).processed_rows + (buffer ++ [r]).length } hk2 rfl
            refine ⟨p2, d2, m2, ?_, ?_, ?_, ?_, ?_⟩
            · simp only [importRows, hnr]
              rw [if_pos hch, hup]
              exact heq
            · rw [h1]
              simp only [List.length_cons]
              omega
            · rw [h2]
              simp only [List.filterMap_cons, hnr, List.length_append, List.length_cons,
                List.length_nil]
              omega
            · simpa using h3
            · simpa using h4
          · obtain ⟨p2, d2, m2, heq, h1, h2, h3, h4⟩ :=
              ih (idx + 1) (buffer ++ [r]) prods
                (if (idx + 1) % 1000 == 0 then
                  saveTotalRows dbJob { memJob with total_rows := idx + 1 } else dbJob)
                { memJob with total_rows := idx + 1 } hkall rfl
            refine ⟨p2, d2, m2, ?_, ?_, ?_, ?_, ?_⟩
            · simp only [importRows, hnr]
              rw [if_neg hch]
              exact heq
            · rw [h1]
              simp only [List.length_cons]
              omega
            · rw [h2]
              simp only [List.filterMap_cons, hnr, List.length_append, List.length_cons,
                List.length_nil]
              omega
            · simpa using h3
            · simpa using h4

theorem filterMap_normalizeRow_length (rows : List Row) :
    (rows.filterMap normalizeRow).length =
      rows.countP (fun row => !(pyStrip (orEmpty row.sku) == "")) := by
  induction rows with
  | nil => rfl
  | cons r rs ih =>
      by_cases h : pyStrip (orEmpty r.sku) = ""
      · simp [List.filterMap_cons, normalizeRow, h, List.countP_cons, ih]
      · simp [List.filterMap_cons, normalizeRow, h, List.countP_cons, ih]

theorem processImportJob_ok_file {prods : List Product} {job : ImportJob} {rows : List Row}
    {p2 : List Product} {d2 m2 : ImportJob}
    (hfile : job.file = some rows)
    (heq : importRows rows 0 [] prods
        (saveResetFields job { job with status := JobStatus.processing, error_message := "", total_rows := 0, processed_rows := 0, file := some rows })
        { job with status := JobStatus.processing, error_message := "", total_rows := 0, processed_rows := 0, file := some rows } = ⟨p2, d2, m2, none⟩) :
    processImportJob prods job =
      (p2, saveCompletion d2 { m2 with status := JobStatus.completed }, none) := by
  simp only [processImportJob]
  rw [hfile]
  simp only [heq]

/-- C4 (amended): skipping never fails a job, but the claim as stated
is false when the kept rows repeat a case-folded SKU that matches no
stored product (see the counterexample: the duplicate inserts violate
the unique constraint and the job ends failed).  Amended: for a CSV
whose data rows are either skipped (missing, empty or whitespace-only
SKU) or well-formed with pairwise-distinct case-folded SKUs among the
kept rows, `run(job_id)` finishes with `status=completed`, `total_rows`
equal to the number of data rows including the skipped ones, and
`processed_rows` equal to the number of rows whose trimmed SKU is
non-empty. -/
theorem run_skip_semantics (prods : List Product) (job : ImportJob) (rows : List Row)
    (hfile : job.file = some rows)
    (hk : ((rows.filterMap normalizeRow).map (fun it => skuKey it.sku_upper)).Nodup) :
    ∃ p2 j2, processImportJob prods job = (p2, j2, none) ∧
      j2.status = JobStatus.completed ∧
      j2.total_rows = rows.length ∧
      j2.processed_rows = rows.countP (fun row => !(pyStrip (orEmpty row.sku) == "")) := by
  obtain ⟨p2, d2, m2, heq, h1, h2, h3, h4⟩ :=
    importRows_ok rows 0 [] prods
      (saveResetFields job { job with status := JobStatus.processing, error_message := "", total_rows := 0, processed_rows := 0, file := some rows })
      { job with status := JobStatus.processing, error_message := "", total_rows := 0, processed_rows := 0, file := some rows }
      (by simpa using hk) rfl
  refine ⟨p2, saveCompletion d2 { m2 with status := JobStatus.completed },
    processImportJob_ok_file hfile heq, rfl, ?_, ?_⟩
  · show m2.total_rows = rows.length
    rw [h1]
    simp
  · show m2.processed_rows = _
    rw [h2, ← filterMap_normalizeRow_length]
    simp

/-- Fixture: the end-to-end scenario CSV — SKU "abc", an empty-SKU row,
then SKU "ABC": every non-skipped row is individually well-formed, but
the two kept rows collide under case folding. -/
def csvDupRows : List Row :=
  [ Row.mk (some "abc") (some "first") none (some "9.99"),
    Row.mk (some "") (some "skip me") none none,
    Row.mk (some "ABC") (some "third") none (some "12.50") ]

/-- C4 counterexample: on the scenario CSV every non-skipped row is
individually well-formed (it normalizes) and one row is skipped, yet
the job does not complete: both kept rows case-fold to the same new
SKU, the staged duplicate inserts violate `uniq_product_sku_ci`, and
`run(job_id)` ends with `status=failed` — refuting
"the job finishes with status=completed". -/
theorem run_skip_semantics_counterexample :
    (normalizeRow (Row.mk (some "abc") (some "first") none (some "9.99"))).isSome = true ∧
    normalizeRow (Row.mk (some "") (some "skip me") none none) = none ∧
    (normalizeRow (Row.mk (some "ABC") (some "third") none (some "12.50"))).isSome = true ∧
    (processImportJob [] { emptyJob with file := some csvDupRows }).2.1.status =
      JobStatus.failed ∧
    (processImportJob [] { emptyJob with file := some csvDupRows }).2.2 =
      some uniqueViolationMessage ∧
    JobStatus.failed ≠ JobStatus.completed :=
  ⟨by decide, by decide, by decide, by decide, by decide, by decide⟩

/-- Fixture: the three-row CSV of the skip scenario — a kept row, a row
with an empty SKU, and another kept row. -/
def csvRows : List Row :=
  [ Row.mk (some "abc") (some "first") none (some "9.99"),
    Row.mk (some "") (some "skip me") none none,
    Row.mk (some "DEF") (some "third") none (some "12.50") ]

/-- Witness for C4: the three-row CSV completes with `total_rows = 3`
and `processed_rows = 2`. -/
theorem run_skip_semantics_witness :
    (∃ p2 j2, processImportJob [] { emptyJob with file := some csvRows } = (p2, j2, none) ∧
      j2.status = JobStatus.completed ∧
      j2.total_rows = csvRows.length ∧
      j2.processed_rows = csvRows.countP (fun row => !(pyStrip (orEmpty row.sku) == ""))) ∧
    csvRows.length = 3 ∧
    csvRows.countP (fun row => !(pyStrip (orEmpty row.sku) == "")) = 2 :=
  ⟨run_skip_semantics [] { emptyJob with file := some csvRows } csvRows rfl (by decide),
    by decide, by decide⟩

/-! ### Claim C8 -/

theorem runScheduled_receipts (hooks : List Webhook) (http : Nat → HttpResult) :
    ∀ (sched : List (Nat × String)) (i : Nat) (deliveries : List WebhookDelivery),
      (∀ x ∈ sched, (findWebhook hooks x.1).isSome = true) →
      ∃ new, runScheduled hooks http sched i deliveries = deliveries ++ new ∧
        new.length = sched.length ∧
        ∀ d ∈ new, d.webhook_id ∈ sched.map Prod.fst := by
  intro sched
  induction sched with
  | nil =>
      intro i deliveries _
      exact ⟨[], by simp [runScheduled], rfl, by simp⟩
  | cons hd tl ih =>
      intro i deliveries hall
      obtain ⟨wid, pay⟩ := hd
      have hw : (findWebhook hooks wid).isSome = true := hall (wid, pay) (by simp)
      obtain ⟨w, hw2⟩ := Option.isSome_iff_exists.mp hw
      obtain ⟨d, hd1, hd2⟩ :=
        @deliver_found_receipt hooks deliveries wid pay (http i) w hw2
      obtain ⟨new, hnew1, hnew2, hnew3⟩ :=
        ih (i + 1) (deliveries ++ [d]) (fun x hx => hall x (by simp [hx]))
      refine ⟨d :: new, ?_, ?_, ?_⟩
      · simp only [runScheduled]
        rw [hd1]
        simpa [List.append_assoc] using hnew1
      · simp [hnew2]
      · intro x hx
        rcases List.mem_cons.mp hx with h | h
        · subst h
          simp [hd2]
        · have hmem := hnew3 x h
          simp only [List.map_cons]
          exact List.mem_cons_of_mem _ hmem

/-- C8: triggering an event fans out to exactly the enabled webhooks
configured for that event name.  Executing the scheduled deliveries
creates exactly one receipt per matching webhook — each receipt's
`success` is a definite boolean even when every destination is
unreachable — a disabled webhook or one configured for a different
event receives no delivery, and zero matching webhooks is a silent
no-op. -/
theorem trigger_fanout_receipts (hooks : List Webhook) (event payload : String)
    (http : Nat → HttpResult) (deliveries : List WebhookDelivery)
    (hids : (hooks.map Webhook.id).Nodup) :
    ∃ new, runScheduled hooks http (triggerEventWebhooks hooks event payload) 0 deliveries =
        deliveries ++ new ∧
      new.length = (matchingHooks hooks event).length ∧
      (∀ d ∈ new, ∃ w ∈ matchingHooks hooks event, d.webhook_id = w.id) ∧
      (∀ w ∈ hooks, ¬ (w.event = event ∧ w.is_enabled = true) →
        ∀ d ∈ new, d.webhook_id ≠ w.id) ∧
      (matchingHooks hooks event = [] →
        runScheduled hooks http (triggerEventWebhooks hooks event payload) 0 deliveries =
          deliveries) := by
  have hallfind : ∀ x ∈ triggerEventWebhooks hooks event payload,
      (findWebhook hooks x.1).isSome = true := by
    intro x hx
    unfold triggerEventWebhooks at hx
    obtain ⟨w, hw, hxw⟩ := List.mem_map.mp hx
    subst hxw
    have hww : w ∈ hooks := (List.mem_filter.mp hw).1
    have hex : ∃ y ∈ hooks, (y.id == w.id) = true := ⟨w, hww, by simp⟩
    simpa [findWebhook, List.find?_isSome] using hex
  obtain ⟨new, h1, h2, h3⟩ :=
    runScheduled_receipts hooks http (triggerEventWebhooks hooks event payload) 0 deliveries
      hallfind
  have hmem_matching : ∀ d ∈ new, ∃ w ∈ matchingHooks hooks event, d.webhook_id = w.id := by
    intro d hd
    have hin := h3 d hd
    simp only [triggerEventWebhooks, List.map_map] at hin
    obtain ⟨w, hw, hid⟩ := List.mem_map.mp hin
    exact ⟨w, hw, hid.symm⟩
  refine ⟨new, h1, ?_, hmem_matching, ?_, ?_⟩
  · rw [h2]
    simp [triggerEventWebhooks]
  · intro w hwmem hnot d hd hcontra
    obtain ⟨w2, hw2, hid2⟩ := hmem_matching d hd
    have hw2hooks : w2 ∈ hooks := (List.mem_filter.mp hw2).1
    have hideq : w2.id = w.id := by rw [← hid2, ← hcontra]
    have hweq : w2 = w := List.inj_on_of_nodup_map hids hw2hooks hwmem hideq
    apply hnot
    have hpred := (List.mem_filter.mp hw2).2
    rw [hweq] at hpred
    simpa [Bool.and_eq_true] using hpred
  · intro hempty
    rw [h1]
    have hnil : new = [] := by
      have hlen : new.length = 0 := by
        rw [h2]
        simp [triggerEventWebhooks, hempty]
      exact List.eq_nil_of_length_eq_zero hlen
    simp [hnil]

/-- Fixture: an enabled webhook subscribed to product.created. -/
def hookEnabled1 : Webhook :=
  { id := 1, url := "http://one", event := "product.created", is_enabled := true }

/-- Fixture: a second enabled webhook on the same event. -/
def hookEnabled2 : Webhook :=
  { id := 2, url := "http://two", event := "product.created", is_enabled := true }

/-- Fixture: a disabled webhook on the same event. -/
def hookDisabled : Webhook :=
  { id := 3, url := "http://three", event := "product.created", is_enabled := false }

/-- Fixture: an enabled webhook on a different event. -/
def hookOtherEvent : Webhook :=
  { id := 4, url := "http://four", event := "product.deleted", is_enabled := true }

/-- Fixture: the four webhooks of the fan-out scenario. -/
def sampleHooks : List Webhook := [hookEnabled1, hookEnabled2, hookDisabled, hookOtherEvent]

/-- Witness for C8: two of the four webhooks match product.created, and
even with every destination unreachable exactly two receipts appear. -/
theorem trigger_fanout_receipts_witness :
    (∃ new, runScheduled sampleHooks (fun _ => HttpResult.exn "connection refused" 5000)
        (triggerEventWebhooks sampleHooks "product.created" "payload") 0 [] = [] ++ new ∧
      new.length = (matchingHooks sampleHooks "product.created").length ∧
      (∀ d ∈ new, ∃ w ∈ matchingHooks sampleHooks "product.created", d.webhook_id = w.id) ∧
      (∀ w ∈ sampleHooks, ¬ (w.event = "product.created" ∧ w.is_enabled = true) →
        ∀ d ∈ new, d.webhook_id ≠ w.id) ∧
      (matchingHooks sampleHooks "product.created" = [] →
        runScheduled sampleHooks (fun _ => HttpResult.exn "connection refused" 5000)
          (triggerEventWebhooks sampleHooks "product.created" "payload") 0 [] = [])) ∧
    (matchingHooks sampleHooks "product.created").length = 2 :=
  ⟨trigger_fanout_receipts sampleHooks "product.created" "payload"
      (fun _ => HttpResult.exn "connection refused" 5000) [] (by decide),
    by decide⟩

end ProductImporter
